import Mathlib

/-!
# go-prom-proxy: key store, bearer-token gate and CPU-usage route

A shallow embedding of `main.go`.  Process state that the Go code reaches through the
operating system (environment variables, the file system, the random source, the upstream
metrics server) is made explicit:

* `World` is the mutable state: environment, files, and two effect logs (queries sent to the
  upstream server, lines printed on standard output);
* `Oracle` fixes the outcome of the system calls of one run: which of them fail and which
  bytes the random source delivers;
* `Upstream` fixes what the Prometheus client library answers;
* `log.Fatalf` (process exit) is `Except.error`.

Go strings are modelled by `String`; a `float64` is carried as its IEEE-754 bit pattern, the
program never computes with it, but `encoding/json` refuses to encode NaN and the
infinities, which `c.JSON` turns into an aborted request without a body.
-/

namespace PromProxy

/-! ## Strings -/

/-- One piece cut by `strings.Split` at a one-character separator, on character lists:
the pieces between consecutive separators, the empty pieces included. -/
def splitOn (sep : Char) : List Char → List (List Char)
  | [] => [[]]
  | c :: cs =>
    if c = sep then [] :: splitOn sep cs
    else
      match splitOn sep cs with
      | [] => [[c]]
      | p :: ps => (c :: p) :: ps

/-- Go `strings.Split(s, sep)` for a separator of one character (the program only splits at
`" "`). -/
def Split (s : String) (sep : Char) : List String :=
  (splitOn sep s.data).map String.mk

/-! ## Hexadecimal encoding (`encoding/hex`) -/

/-- A Go `byte`. -/
abbrev Byte := Fin 256

/-- The digit table of `encoding/hex`. -/
def hextable : String := "0123456789abcdef"

/-- Go `hex.EncodeToString`: each byte `v` gives `hextable[v>>4]`, `hextable[v&0x0f]`. -/
def EncodeToString (src : List Byte) : String :=
  String.mk (src.flatMap fun v =>
    [hextable.data.getD (v.val >>> 4) '0', hextable.data.getD (v.val &&& 0x0f) '0'])

/-- Go `hex.fromHexChar`: the value of one hexadecimal digit. -/
def fromHexChar (c : Char) : Option Nat :=
  if '0' ≤ c ∧ c ≤ '9' then some (c.toNat - '0'.toNat)
  else if 'a' ≤ c ∧ c ≤ 'f' then some (c.toNat - 'a'.toNat + 10)
  else if 'A' ≤ c ∧ c ≤ 'F' then some (c.toNat - 'A'.toNat + 10)
  else none

/-- Go `hex.Decode` on a character list: two digits per byte, an odd length or a character
that is no digit is an error. -/
def decodeChars : List Char → Option (List Byte)
  | [] => some []
  | [_] => none
  | a :: b :: rest =>
    match fromHexChar a, fromHexChar b, decodeChars rest with
    | some x, some y, some bs => some (Fin.ofNat ((x <<< 4) ||| y) :: bs)
    | _, _, _ => none

/-- Go `hex.DecodeString`. -/
def DecodeString (s : String) : Option (List Byte) :=
  decodeChars s.data

/-- A character of `0-9` or `a-f`. -/
def isLowerHex (c : Char) : Bool :=
  ('0' ≤ c && c ≤ '9') || ('a' ≤ c && c ≤ 'f')

/-! ## Process state -/

/-- The secret file path of `main.go`. -/
def secretFilePath : String := "api_key.secret"

/-- A regular file: its bytes and the permission bits requested when it was created (the
process umask is outside the model). -/
structure File where
  contents : String
  perm : Nat
  deriving DecidableEq, Repr

/-- The state the program reads and writes. -/
structure World where
  /-- Environment variables, the first entry of a name wins. -/
  env : List (String × String)
  /-- Files by path. -/
  files : List (String × File)
  /-- Queries sent to the upstream metrics server, oldest first. -/
  queries : List String
  /-- Lines printed on standard output, oldest first. -/
  stdout : List String
  deriving DecidableEq, Repr

/-- Outcome of the system calls of one run. -/
structure Oracle where
  /-- `os.Stat` fails with an error other than "does not exist". -/
  statErr : Bool
  /-- `os.ReadFile` fails. -/
  readErr : Bool
  /-- `os.WriteFile` fails. -/
  writeErr : Bool
  /-- `rand.Read` fails. -/
  randErr : Bool
  /-- The bytes the random source delivers, in order. -/
  randBytes : Nat → Byte

/-- Go `os.Getenv`: the value, `""` when the variable is unset. -/
def Getenv (w : World) (key : String) : String :=
  (w.env.lookup key).getD ""

/-- Go `os.Setenv`: rejected (state unchanged; the program ignores the error) for an empty
key, a key containing `=` or NUL, and a value containing NUL. -/
def Setenv (w : World) (key value : String) : World :=
  if key = "" ∨ '=' ∈ key.data ∨ '\x00' ∈ key.data ∨ '\x00' ∈ value.data then w
  else { w with env := (key, value) :: w.env.filter fun p => p.1 != key }

/-- Result of `os.Stat` as far as the program looks at it. -/
inductive StatResult where
  | ok
  | notExist
  | otherErr
  deriving DecidableEq, Repr

/-- Go `os.Stat`. -/
def Stat (o : Oracle) (w : World) (path : String) : StatResult :=
  if o.statErr then .otherErr
  else
    match w.files.lookup path with
    | none => .notExist
    | some _ => .ok

/-- Go `os.IsNotExist` on the error of `os.Stat`. -/
def IsNotExist : StatResult → Bool
  | .notExist => true
  | _ => false

/-- Go `os.WriteFile`: creates the file with `perm`, or truncates an existing one (which keeps
its permission bits); `none` on error. -/
def WriteFile (o : Oracle) (w : World) (path data : String) (perm : Nat) : Option World :=
  if o.writeErr then none
  else
    match w.files.lookup path with
    | none => some { w with files := (path, ⟨data, perm⟩) :: w.files }
    | some f =>
      some { w with files := (path, ⟨data, f.perm⟩) :: w.files.filter fun p => p.1 != path }

/-- Go `os.ReadFile`: the full contents; `none` on error (a missing file is one). -/
def ReadFile (o : Oracle) (w : World) (path : String) : Option String :=
  if o.readErr then none
  else (w.files.lookup path).map File.contents

/-- Go `rand.Read` into a buffer of `n` bytes, when it succeeds. -/
def randRead (o : Oracle) (n : Nat) : List Byte :=
  (List.range n).map o.randBytes

/-! ## Key store -/

/-- Source `getEnvironment`. -/
def getEnvironment (w : World) (name defaultValue : String) : String :=
  if Getenv w name = "" then defaultValue else Getenv w name

/-- Source `generateAPIKey`: 32 random bytes, hex encoded; fatal when the random source
fails. -/
def generateAPIKey (o : Oracle) : Except String String :=
  if o.randErr then .error "Failed to generate API key"
  else .ok (EncodeToString (randRead o 32))

/-- Source `getOrGenerateAPIKey`: the override, else a freshly generated and persisted key
when the secret file does not exist, else the contents of the secret file. -/
def getOrGenerateAPIKey (o : Oracle) (w : World) : Except String (String × World) :=
  let apiKey := getEnvironment w "PROM_PROXY_SECURE_API_KEY" ""
  if apiKey.length > 0 then .ok (apiKey, w)
  else if IsNotExist (Stat o w secretFilePath) then
    match generateAPIKey o with
    | .error e => .error e
    | .ok apiKey =>
      match WriteFile o w secretFilePath apiKey 0o600 with
      | none => .error "Failed to write API key to file"
      | some w1 => .ok (apiKey, Setenv w1 "PROM_PROXY_SECURE_API_KEY" apiKey)
  else
    match ReadFile o w secretFilePath with
    | none => .error "Failed to read API key from file"
    | some apiKeyFile => .ok (apiKeyFile, Setenv w "PROM_PROXY_SECURE_API_KEY" apiKeyFile)

/-! ## Requests and responses (`gin`) -/

/-- A `float64`, carried as its IEEE-754 binary64 bit pattern: one sign bit, eleven exponent
bits, fifty-two fraction bits; `0` is the bit pattern of `+0`. -/
structure Float64 where
  bits : Nat
  deriving DecidableEq, Repr

/-- The exponent field of a `float64`. -/
def Float64.exponent (f : Float64) : Nat :=
  (f.bits >>> 52) &&& 0x7ff

/-- The fraction field of a `float64`. -/
def Float64.fraction (f : Float64) : Nat :=
  f.bits &&& 0xfffffffffffff

/-- Go `math.IsNaN`: all exponent bits set and a non-zero fraction. -/
def IsNaN (f : Float64) : Bool :=
  f.exponent == 0x7ff && f.fraction != 0

/-- Go `math.IsInf(f, 0)`: all exponent bits set and a zero fraction. -/
def IsInf (f : Float64) : Bool :=
  f.exponent == 0x7ff && f.fraction == 0

/-- A JSON value as the program builds them. -/
inductive JSONValue where
  | str (s : String)
  | num (v : Float64)
  deriving DecidableEq, Repr

/-- The map `gin.H`, as its list of entries. -/
abbrev H := List (String × JSONValue)

/-- Whether `encoding/json` encodes a value: a string always, a `float64` unless it is NaN or
infinite (`UnsupportedValueError`). -/
def JSONValue.encodes : JSONValue → Bool
  | .str _ => true
  | .num v => !(IsInf v || IsNaN v)

/-- Go `json.Marshal` of a `gin.H`: the encoded body, represented by the entries themselves;
`none` when a value does not encode. -/
def Marshal (obj : H) : Option H :=
  if obj.all (fun p => p.2.encodes) then some obj else none

/-- The check `bodyAllowedForStatus` of `gin`: no body for `1xx`, `204` and `304`. -/
def bodyAllowedForStatus (status : Nat) : Bool :=
  if status ≥ 100 ∧ status ≤ 199 then false
  else if status = 204 then false
  else if status = 304 then false
  else true

/-- Go `http.StatusOK`. -/
def StatusOK : Nat := 200

/-- Go `http.StatusUnauthorized`. -/
def StatusUnauthorized : Nat := 401

/-- Go `http.StatusInternalServerError`. -/
def StatusInternalServerError : Nat := 500

/-- The part of `gin.Context` the program touches: request headers and route parameters, the
response status (`200` until one is written) and body, and whether the chain was aborted. -/
structure Context where
  /-- Request headers, keys in canonical form, the first entry of a key wins. -/
  header : List (String × String)
  /-- Route parameters. -/
  params : List (String × String)
  status : Nat
  body : Option H
  aborted : Bool
  deriving DecidableEq, Repr

/-- Go `c.GetHeader`: the header value, `""` when the header is absent. -/
def Context.GetHeader (c : Context) (key : String) : String :=
  (c.header.lookup key).getD ""

/-- Go `c.Param`: the route parameter, `""` when there is none. -/
def Context.Param (c : Context) (key : String) : String :=
  (c.params.lookup key).getD ""

/-- Go `c.Abort`: the handlers that are still pending will not run. -/
def Context.Abort (c : Context) : Context :=
  { c with aborted := true }

/-- Go `c.JSON`, that is `c.Render` with the JSON renderer: sets the status, then writes the
encoded body; when the object does not encode nothing is written and the context is aborted
(the error goes to `c.Errors`, which is not modelled). -/
def Context.JSON (c : Context) (code : Nat) (obj : H) : Context :=
  let c1 : Context := { c with status := code }
  if bodyAllowedForStatus code then
    match Marshal obj with
    | some b => { c1 with body := some b }
    | none => c1.Abort
  else c1

/-- A `gin.HandlerFunc`, with the process state made explicit; `Except.error` is a fatal exit
of the process. -/
abbrev HandlerFunc := Context → World → Except String (Context × World)

/-! ## Auth gate -/

/-- Source `apiKeyMiddleware`; `next` is what `c.Next()` runs, the rest of the handler chain. -/
def apiKeyMiddleware (o : Oracle) (next : HandlerFunc) : HandlerFunc := fun c w =>
  let key : Except String (String × World) :=
    if getEnvironment w "PROM_PROXY_SECURE_API_WITH_KEY" "False" = "True" then
      getOrGenerateAPIKey o w
    else .ok ("", w)
  match key with
  | .error e => .error e
  | .ok (apiKey, w1) =>
    if apiKey ≠ "" then
      let authHeader := c.GetHeader "Authorization"
      if authHeader = "" then
        .ok ((c.JSON StatusUnauthorized
          [("error", .str "Authorization header is missing")]).Abort, w1)
      else
        let parts := Split authHeader ' '
        if parts.length ≠ 2 ∨ parts.getD 0 "" ≠ "Bearer" then
          .ok ((c.JSON StatusUnauthorized
            [("error", .str "Invalid Authorization header format")]).Abort, w1)
        else if parts.getD 1 "" ≠ apiKey then
          .ok ((c.JSON StatusUnauthorized [("error", .str "Unauthorized")]).Abort, w1)
        else next c w1
    else next c w1

/-! ## Metrics query client and route -/

/-- A `model.Sample`: labels and value. -/
structure Sample where
  Metric : List (String × String)
  Value : Float64
  deriving DecidableEq, Repr

/-- A `model.Value`: the four result types of the Prometheus client. -/
inductive Value where
  | scalar (v : Float64)
  | string (s : String)
  | vector (samples : List Sample)
  | matrix (series : List (List Sample))
  deriving DecidableEq, Repr

/-- What the Prometheus client library answers. -/
structure Upstream where
  /-- The error of `api.NewClient` for a server address, if any. -/
  newClient : String → Option String
  /-- The answer of `v1api.Query` to a query: result, warnings, error. -/
  query : String → Value × List String × Option String

/-- The query text `getAverageCPUUsage` builds with `fmt.Sprintf`. -/
def cpuUsageQuery (containerName seconds : String) : String :=
  "avg(rate(container_cpu_usage_seconds_total\x7bname=\"" ++ containerName
    ++ "\"\x7d[" ++ seconds ++ "s])) * 100"

/-- Source `getAverageCPUUsage`: value and error as Go returns them, and the state after. -/
def getAverageCPUUsage (up : Upstream) (promURL seconds containerName : String) (w : World) :
    (Float64 × Option String) × World :=
  match up.newClient promURL with
  | some err => ((⟨0⟩, some err), w)
  | none =>
    let query := cpuUsageQuery containerName seconds
    let w1 := { w with queries := w.queries ++ [query] }
    match up.query query with
    | (_, _, some err) => ((⟨0⟩, some err), w1)
    | (result, warnings, none) =>
      let w2 :=
        if warnings.length > 0 then
          { w1 with stdout := w1.stdout ++ ["Warnings: [" ++ " ".intercalate warnings ++ "]"] }
        else w1
      match result with
      | .vector (s :: _) => ((s.Value, none), w2)
      | _ => ((⟨0⟩, some ("no data found for container: " ++ containerName)), w2)

/-- The handler `main` registers for `GET /cpu_usage/:seconds/:container`. -/
def cpuUsageHandler (up : Upstream) (promURL : String) : HandlerFunc := fun c w =>
  let seconds := c.Param "seconds"
  let containerName := c.Param "container"
  match getAverageCPUUsage up promURL seconds containerName w with
  | ((_, some err), w1) => .ok (c.JSON StatusInternalServerError [("error", .str err)], w1)
  | ((averageCPUUsage, none), w1) =>
    .ok (c.JSON StatusOK [("average_cpu_usage", .num averageCPUUsage)], w1)

/-- The handler chain `main` builds: the gate in front of the route handler. -/
def serve (o : Oracle) (up : Upstream) (promURL : String) : HandlerFunc :=
  apiKeyMiddleware o (cpuUsageHandler up promURL)

/-! ## Concrete states used to instantiate the theorems -/

/-- Every system call succeeds, the random source counts `0, 1, 2, ...`. -/
def soundOracle : Oracle := ⟨false, false, false, false, fun i => Fin.ofNat i⟩

/-- Every system call fails. -/
def failingOracle : Oracle := ⟨true, true, true, true, fun _ => 0⟩

/-- As `soundOracle`, with another random source. -/
def otherOracle : Oracle := ⟨false, false, false, false, fun _ => 255⟩

/-- Nothing set, no file. -/
def emptyWorld : World := ⟨[], [], [], []⟩

/-- Security on, no override, an existing secret file with no contents. -/
def emptyFileWorld : World :=
  ⟨[("PROM_PROXY_SECURE_API_WITH_KEY", "True")], [(secretFilePath, ⟨"", 0o600⟩)], [], []⟩

/-- Security on, the override holding a key with a space, a secret file beside it. -/
def spacedKeyWorld : World :=
  ⟨[("PROM_PROXY_SECURE_API_WITH_KEY", "True"), ("PROM_PROXY_SECURE_API_KEY", "a b")],
    [(secretFilePath, ⟨"zz", 0o644⟩)], [], []⟩

/-- Security on, the override holding the key `s3cret`. -/
def overrideWorld : World :=
  ⟨[("PROM_PROXY_SECURE_API_WITH_KEY", "True"), ("PROM_PROXY_SECURE_API_KEY", "s3cret")],
    [], [], []⟩

/-- Security switched off by a value that is not exactly `True`. -/
def offWorld : World :=
  ⟨[("PROM_PROXY_SECURE_API_WITH_KEY", "true"), ("PROM_PROXY_SECURE_API_KEY", "s3cret")],
    [], [], []⟩

/-- The key `soundOracle` generates. -/
def soundKey : String := "000102030405060708090a0b0c0d0e0f101112131415161718191a1b1c1d1e1f"

/-- The state after `soundOracle` generated a key in `emptyWorld`. -/
def generatedWorld : World :=
  ⟨[("PROM_PROXY_SECURE_API_KEY", soundKey)], [(secretFilePath, ⟨soundKey, 0o600⟩)], [], []⟩

/-- The state `generatedWorld` after a restart: the file kept, the environment new. -/
def restartedWorld : World :=
  ⟨[("HOME", "/root")], [(secretFilePath, ⟨soundKey, 0o600⟩)], [], []⟩

/-- A request for `/cpu_usage/30/ollama-ollama_3-1` with the given headers. -/
def request (header : List (String × String)) : Context :=
  ⟨header, [("seconds", "30"), ("container", "ollama-ollama_3-1")], 200, none, false⟩

/-- An upstream that answers every query with one sample. -/
def oneSampleUpstream : Upstream :=
  ⟨fun _ => none, fun _ => (.vector [⟨[], ⟨42⟩⟩], [], none)⟩

theorem length_pos_iff_ne_empty (s : String) : s.length > 0 ↔ s ≠ "" := by
  cases s with
  | mk l =>
    cases l with
    | nil => simp [String.length]
    | cons a t =>
      simp only [String.length, List.length_cons, gt_iff_lt, Nat.succ_pos, ne_eq, true_iff]
      intro h
      have := congrArg String.data h
      simp at this

/-! ## Auxiliary facts: hexadecimal encoding -/

theorem hi_nibble_lt (v : Byte) : v.val >>> 4 < 16 := by
  have := v.isLt
  rw [Nat.shiftRight_eq_div_pow]; omega

theorem lo_nibble_lt (v : Byte) : v.val &&& 0x0f < 16 := by
  have h : v.val &&& 0x0f = v.val % 16 := Nat.and_pow_two_sub_one_eq_mod v.val 4
  rw [h]; omega

theorem hexdigit_lower : ∀ n : Fin 16, isLowerHex (hextable.data.getD n.val '0') = true := by
  decide

theorem hexdigit_value :
    ∀ n : Fin 16, fromHexChar (hextable.data.getD n.val '0') = some n.val := by
  decide

set_option maxRecDepth 100000 in
theorem nibbles_join :
    ∀ v : Byte, (Fin.ofNat (((v.val >>> 4) <<< 4) ||| (v.val &&& 0x0f)) : Byte) = v := by
  decide

theorem EncodeToString_nil : (EncodeToString []).data = [] := rfl

theorem EncodeToString_cons (v : Byte) (vs : List Byte) :
    (EncodeToString (v :: vs)).data =
      hextable.data.getD (v.val >>> 4) '0' :: hextable.data.getD (v.val &&& 0x0f) '0'
        :: (EncodeToString vs).data := by
  simp [EncodeToString]

theorem EncodeToString_length (src : List Byte) :
    (EncodeToString src).length = 2 * src.length := by
  induction src with
  | nil => rfl
  | cons v vs ih =>
    have h := ih
    simp only [String.length] at h ⊢
    rw [EncodeToString_cons]
    simp only [List.length_cons, h]
    omega

theorem EncodeToString_lower (src : List Byte) :
    ∀ c ∈ (EncodeToString src).data, isLowerHex c = true := by
  induction src with
  | nil => intro c hc; simp [EncodeToString_nil] at hc
  | cons v vs ih =>
    intro c hc
    rw [EncodeToString_cons] at hc
    simp only [List.mem_cons] at hc
    rcases hc with h | h | h
    · rw [h]; exact hexdigit_lower ⟨_, hi_nibble_lt v⟩
    · rw [h]; exact hexdigit_lower ⟨_, lo_nibble_lt v⟩
    · exact ih c h

theorem DecodeString_EncodeToString (src : List Byte) :
    DecodeString (EncodeToString src) = some src := by
  unfold DecodeString
  induction src with
  | nil => rfl
  | cons v vs ih =>
    rw [EncodeToString_cons, decodeChars]
    have h1 := hexdigit_value ⟨_, hi_nibble_lt v⟩
    have h2 := hexdigit_value ⟨_, lo_nibble_lt v⟩
    simp only at h1 h2
    rw [h1, h2, ih]
    simp only [nibbles_join v]

theorem EncodeToString_injective {a b : List Byte}
    (h : EncodeToString a = EncodeToString b) : a = b := by
  have ha := DecodeString_EncodeToString a
  rw [h, DecodeString_EncodeToString b] at ha
  exact (Option.some.inj ha).symm

theorem randRead_length (o : Oracle) (n : Nat) : (randRead o n).length = n := by
  simp [randRead]


/-! ## Auxiliary facts: environment and files -/

theorem getEnvironment_empty (w : World) (name : String) :
    getEnvironment w name "" = Getenv w name := by
  unfold getEnvironment
  split
  · next h => exact h.symm
  · rfl

theorem Setenv_files (w : World) (k v : String) : (Setenv w k v).files = w.files := by
  unfold Setenv; split <;> rfl

theorem Setenv_queries (w : World) (k v : String) : (Setenv w k v).queries = w.queries := by
  unfold Setenv; split <;> rfl

theorem Setenv_stdout (w : World) (k v : String) : (Setenv w k v).stdout = w.stdout := by
  unfold Setenv; split <;> rfl

theorem Getenv_Setenv_key (w : World) (v : String) (hv : '\x00' ∉ v.data) :
    Getenv (Setenv w "PROM_PROXY_SECURE_API_KEY" v) "PROM_PROXY_SECURE_API_KEY" = v := by
  have hk : ¬ ("PROM_PROXY_SECURE_API_KEY" = "" ∨ '=' ∈ "PROM_PROXY_SECURE_API_KEY".data ∨
      '\x00' ∈ "PROM_PROXY_SECURE_API_KEY".data) := by decide
  have hc : ¬ ("PROM_PROXY_SECURE_API_KEY" = "" ∨ '=' ∈ "PROM_PROXY_SECURE_API_KEY".data ∨
      '\x00' ∈ "PROM_PROXY_SECURE_API_KEY".data ∨ '\x00' ∈ v.data) := by
    rintro (h | h | h | h)
    · exact hk (Or.inl h)
    · exact hk (Or.inr (Or.inl h))
    · exact hk (Or.inr (Or.inr h))
    · exact hv h
  unfold Setenv Getenv
  rw [if_neg hc]
  simp [List.lookup]

theorem Getenv_Setenv_nul (w : World) (v : String) (hv : '\x00' ∈ v.data) :
    Setenv w "PROM_PROXY_SECURE_API_KEY" v = w := by
  unfold Setenv
  rw [if_pos (Or.inr (Or.inr (Or.inr hv)))]

theorem lower_hex_no_nul (s : String) (h : ∀ c ∈ s.data, isLowerHex c = true) :
    '\x00' ∉ s.data := by
  intro hc
  have := h _ hc
  revert this
  decide

/-! ## Auxiliary facts: the three branches of the key store -/

theorem key_of_override (o : Oracle) (w : World)
    (h : Getenv w "PROM_PROXY_SECURE_API_KEY" ≠ "") :
    getOrGenerateAPIKey o w = .ok (Getenv w "PROM_PROXY_SECURE_API_KEY", w) := by
  unfold getOrGenerateAPIKey
  simp only [getEnvironment_empty]
  rw [if_pos ((length_pos_iff_ne_empty _).mpr h)]

theorem key_of_generate (o : Oracle) (w : World)
    (h : Getenv w "PROM_PROXY_SECURE_API_KEY" = "")
    (hs : IsNotExist (Stat o w secretFilePath) = true) :
    getOrGenerateAPIKey o w =
      match generateAPIKey o with
      | .error e => .error e
      | .ok apiKey =>
        match WriteFile o w secretFilePath apiKey 0o600 with
        | none => .error "Failed to write API key to file"
        | some w1 => .ok (apiKey, Setenv w1 "PROM_PROXY_SECURE_API_KEY" apiKey) := by
  unfold getOrGenerateAPIKey
  simp only [getEnvironment_empty]
  rw [if_neg (by rw [length_pos_iff_ne_empty]; exact not_not.mpr h), if_pos hs]

theorem key_of_file (o : Oracle) (w : World)
    (h : Getenv w "PROM_PROXY_SECURE_API_KEY" = "")
    (hs : IsNotExist (Stat o w secretFilePath) = false) :
    getOrGenerateAPIKey o w =
      match ReadFile o w secretFilePath with
      | none => .error "Failed to read API key from file"
      | some apiKeyFile =>
        .ok (apiKeyFile, Setenv w "PROM_PROXY_SECURE_API_KEY" apiKeyFile) := by
  unfold getOrGenerateAPIKey
  simp only [getEnvironment_empty]
  rw [if_neg (by rw [length_pos_iff_ne_empty]; exact not_not.mpr h), if_neg (by simp [hs])]

theorem isNotExist_iff (o : Oracle) (w : World) (path : String) :
    IsNotExist (Stat o w path) = true ↔ o.statErr = false ∧ w.files.lookup path = none := by
  unfold Stat
  cases hs : o.statErr <;> cases hl : w.files.lookup path <;> simp [IsNotExist]

/-- What a successful generation leaves behind. -/
theorem generate_result (o : Oracle) (w : World) (k : String) (w1 : World)
    (h : Getenv w "PROM_PROXY_SECURE_API_KEY" = "")
    (hs : IsNotExist (Stat o w secretFilePath) = true)
    (hr : getOrGenerateAPIKey o w = .ok (k, w1)) :
    k = EncodeToString (randRead o 32) ∧ o.randErr = false ∧ o.writeErr = false ∧
      w1 = Setenv { w with files := (secretFilePath, ⟨k, 0o600⟩) :: w.files }
        "PROM_PROXY_SECURE_API_KEY" k := by
  rw [key_of_generate o w h hs] at hr
  have hl := ((isNotExist_iff o w secretFilePath).mp hs).2
  unfold generateAPIKey WriteFile at hr
  cases hre : o.randErr <;> cases hwe : o.writeErr <;> simp [hre, hwe, hl] at hr
  obtain ⟨hk, hw⟩ := hr
  subst hk
  exact ⟨rfl, rfl, rfl, hw.symm⟩

theorem readFile_some (o : Oracle) (w : World) (path c : String)
    (h : ReadFile o w path = some c) :
    o.readErr = false ∧ ∃ f, w.files.lookup path = some f ∧ f.contents = c := by
  unfold ReadFile at h
  cases hr : o.readErr
  · simp only [hr, Bool.false_eq_true, if_false, Option.map_eq_some'] at h
    exact ⟨rfl, h⟩
  · simp [hr] at h

theorem readFile_of_lookup (o : Oracle) (w : World) (path : String) (f : File)
    (hr : o.readErr = false) (h : w.files.lookup path = some f) :
    ReadFile o w path = some f.contents := by
  unfold ReadFile
  simp [hr, h]

theorem isNotExist_of_lookup (o : Oracle) (w : World) (path : String) (f : File)
    (h : w.files.lookup path = some f) : IsNotExist (Stat o w path) = false := by
  cases hn : IsNotExist (Stat o w path)
  · rfl
  · have := ((isNotExist_iff o w path).mp hn).2
    rw [h] at this
    exact absurd this (by simp)

theorem encode32_ne_empty (o : Oracle) : EncodeToString (randRead o 32) ≠ "" := by
  intro h
  have hl := EncodeToString_length (randRead o 32)
  rw [h, randRead_length] at hl
  exact absurd hl (by decide)

/-- Reading an existing secret file with an empty override: the contents are the key. -/
theorem key_of_existing_file (o : Oracle) (w : World) (f : File)
    (h : Getenv w "PROM_PROXY_SECURE_API_KEY" = "")
    (hf : w.files.lookup secretFilePath = some f) (hr : o.readErr = false) :
    getOrGenerateAPIKey o w =
      .ok (f.contents, Setenv w "PROM_PROXY_SECURE_API_KEY" f.contents) := by
  rw [key_of_file o w h (isNotExist_of_lookup o w _ f hf), readFile_of_lookup o w _ f hr hf]

/-- The key store never touches the two effect logs. -/
theorem key_store_logs (o : Oracle) (w : World) (k : String) (w1 : World)
    (h : getOrGenerateAPIKey o w = .ok (k, w1)) :
    w1.queries = w.queries ∧ w1.stdout = w.stdout := by
  by_cases he : Getenv w "PROM_PROXY_SECURE_API_KEY" = ""
  · cases hs : IsNotExist (Stat o w secretFilePath)
    · rw [key_of_file o w he hs] at h
      cases hrd : ReadFile o w secretFilePath with
      | none => simp [hrd] at h
      | some c =>
        simp only [hrd, Except.ok.injEq, Prod.mk.injEq] at h
        rw [← h.2, Setenv_queries, Setenv_stdout]
        exact ⟨rfl, rfl⟩
    · obtain ⟨_, _, _, hw⟩ := generate_result o w k w1 he hs h
      rw [hw, Setenv_queries, Setenv_stdout]
      exact ⟨rfl, rfl⟩
  · rw [key_of_override o w he] at h
    simp only [Except.ok.injEq, Prod.mk.injEq] at h
    rw [← h.2]
    exact ⟨rfl, rfl⟩

/-! ## Key store: override, generation, idempotence, restart -/

/-- C4: with the override `PROM_PROXY_SECURE_API_KEY` set to a non-empty value `v`,
`getOrGenerateAPIKey` returns exactly `v`, whatever the files are and whatever the system
calls would do, and the whole state (environment, secret file) is unchanged. -/
theorem override_returned_state_unchanged (o : Oracle) (w : World) (v : String)
    (hv : v ≠ "") (h : Getenv w "PROM_PROXY_SECURE_API_KEY" = v) :
    getOrGenerateAPIKey o w = .ok (v, w) := by
  have hne : Getenv w "PROM_PROXY_SECURE_API_KEY" ≠ "" := by rw [h]; exact hv
  rw [key_of_override o w hne, h]

/-- C5: with the override unset or empty and no secret file, the call returns when no system
call fails, and whenever it returns a key `k` the secret file exists with contents exactly
`k` and mode `0600`, reading it back gives `k`, and the override now equals `k`. -/
theorem generated_key_persisted (o : Oracle) (w : World)
    (henv : Getenv w "PROM_PROXY_SECURE_API_KEY" = "")
    (hfile : w.files.lookup secretFilePath = none) :
    (o.statErr = false → o.randErr = false → o.writeErr = false →
        ∃ k w1, getOrGenerateAPIKey o w = .ok (k, w1)) ∧
    ∀ k w1, getOrGenerateAPIKey o w = .ok (k, w1) →
      w1.files.lookup secretFilePath = some ⟨k, 0o600⟩ ∧
      (∀ o2 : Oracle, o2.readErr = false → ReadFile o2 w1 secretFilePath = some k) ∧
      Getenv w1 "PROM_PROXY_SECURE_API_KEY" = k := by
  constructor
  · intro hs hr hw
    have hn := (isNotExist_iff o w secretFilePath).mpr ⟨hs, hfile⟩
    rw [key_of_generate o w henv hn]
    simp only [generateAPIKey, WriteFile, hr, hw, hfile, Bool.false_eq_true, if_false]
    exact ⟨_, _, rfl⟩
  · intro k w1 hres
    cases hn : IsNotExist (Stat o w secretFilePath)
    · rw [key_of_file o w henv hn] at hres
      simp [ReadFile, hfile] at hres
    · obtain ⟨hk, _, _, hw⟩ := generate_result o w k w1 henv hn hres
      have hl : w1.files.lookup secretFilePath = some ⟨k, 0o600⟩ := by
        rw [hw, Setenv_files]
        simp [List.lookup]
      refine ⟨hl, ?_, ?_⟩
      · intro o2 h2
        exact readFile_of_lookup o2 w1 _ _ h2 hl
      · rw [hw]
        apply Getenv_Setenv_key
        apply lower_hex_no_nul
        rw [hk]
        exact EncodeToString_lower _

/-- C6: if a first call of `getOrGenerateAPIKey` returns `k`, a second call on the state the
first one left returns `k` again whenever it returns, whatever the random source and the
system calls do then; and it does return when `os.ReadFile` behaves as in the first call. -/
theorem second_call_same_key (o1 o2 : Oracle) (w : World) (k : String) (w1 : World)
    (h1 : getOrGenerateAPIKey o1 w = .ok (k, w1)) :
    (∀ k2 w2, getOrGenerateAPIKey o2 w1 = .ok (k2, w2) → k2 = k) ∧
    (o2.readErr = o1.readErr → ∃ w2, getOrGenerateAPIKey o2 w1 = .ok (k, w2)) := by
  by_cases he : Getenv w "PROM_PROXY_SECURE_API_KEY" = ""
  · cases hs : IsNotExist (Stat o1 w secretFilePath)
    · -- the first call read the file
      rw [key_of_file o1 w he hs] at h1
      cases hrd : ReadFile o1 w secretFilePath with
      | none => simp [hrd] at h1
      | some c =>
        simp only [hrd, Except.ok.injEq, Prod.mk.injEq] at h1
        obtain ⟨hc, hw⟩ := h1
        subst hc
        obtain ⟨hr1, f, hf, hfc⟩ := readFile_some o1 w _ _ hrd
        by_cases he1 : Getenv w1 "PROM_PROXY_SECURE_API_KEY" = ""
        · have hf1 : w1.files.lookup secretFilePath = some f := by
            rw [← hw, Setenv_files]; exact hf
          have hn1 := isNotExist_of_lookup o2 w1 _ f hf1
          constructor
          · intro k2 w2 h2
            rw [key_of_file o2 w1 he1 hn1] at h2
            cases hrd2 : ReadFile o2 w1 secretFilePath with
            | none => simp [hrd2] at h2
            | some c2 =>
              simp only [hrd2, Except.ok.injEq, Prod.mk.injEq] at h2
              obtain ⟨_, f2, hf2, hfc2⟩ := readFile_some o2 w1 _ _ hrd2
              rw [hf1] at hf2
              rw [← h2.1, ← hfc2, ← Option.some.inj hf2, hfc]
          · intro hr
            rw [key_of_existing_file o2 w1 f he1 hf1 (hr.trans hr1), hfc]
            exact ⟨_, rfl⟩
        · have hk : Getenv w1 "PROM_PROXY_SECURE_API_KEY" = c := by
            by_cases hnul : '\x00' ∈ c.data
            · rw [← hw, Getenv_Setenv_nul w c hnul] at he1
              exact absurd he he1
            · rw [← hw]; exact Getenv_Setenv_key w c hnul
          rw [key_of_override o2 w1 he1, hk]
          exact ⟨fun k2 w2 h2 => by
            simp only [Except.ok.injEq, Prod.mk.injEq] at h2; exact h2.1.symm,
            fun _ => ⟨_, rfl⟩⟩
    · -- the first call generated the key
      obtain ⟨hk, _, _, hw⟩ := generate_result o1 w k w1 he hs h1
      have hg : Getenv w1 "PROM_PROXY_SECURE_API_KEY" = k := by
        rw [hw]
        apply Getenv_Setenv_key
        apply lower_hex_no_nul
        rw [hk]
        exact EncodeToString_lower _
      have hne : Getenv w1 "PROM_PROXY_SECURE_API_KEY" ≠ "" := by
        rw [hg, hk]; exact encode32_ne_empty o1
      rw [key_of_override o2 w1 hne, hg]
      exact ⟨fun k2 w2 h2 => by
        simp only [Except.ok.injEq, Prod.mk.injEq] at h2; exact h2.1.symm,
        fun _ => ⟨_, rfl⟩⟩
  · -- the override was set
    rw [key_of_override o1 w he] at h1
    simp only [Except.ok.injEq, Prod.mk.injEq] at h1
    obtain ⟨hk, hw⟩ := h1
    subst hw
    rw [key_of_override o2 w he, hk]
    exact ⟨fun k2 w2 h2 => by
      simp only [Except.ok.injEq, Prod.mk.injEq] at h2; exact h2.1.symm,
      fun _ => ⟨_, rfl⟩⟩

/-- C7: starting with no override and no secret file, if `getOrGenerateAPIKey` generates
`k`, then in any later state with the same files and the override cleared, a call whose
`os.ReadFile` succeeds returns exactly `k`, which is the full contents of the
secret file, and leaves the files as they were, the secret file holding `k`; in general a
call that reads an existing secret file returns its contents unaltered. -/
theorem key_stable_across_restart (o1 o2 : Oracle) (w : World) (k : String) (w1 w' : World)
    (henv : Getenv w "PROM_PROXY_SECURE_API_KEY" = "")
    (hfile : w.files.lookup secretFilePath = none)
    (h1 : getOrGenerateAPIKey o1 w = .ok (k, w1))
    (hkeep : w'.files = w1.files)
    (hclear : Getenv w' "PROM_PROXY_SECURE_API_KEY" = "")
    (hr : o2.readErr = false) :
    (∃ w2, getOrGenerateAPIKey o2 w' = .ok (k, w2) ∧ w2.files = w1.files ∧
        w2.files.lookup secretFilePath = some ⟨k, 0o600⟩) ∧
    ReadFile o2 w' secretFilePath = some k ∧
    ∀ (v : World) (f : File), Getenv v "PROM_PROXY_SECURE_API_KEY" = "" →
      v.files.lookup secretFilePath = some f →
      ∃ v2, getOrGenerateAPIKey o2 v = .ok (f.contents, v2) ∧ v2.files = v.files := by
  have hn : IsNotExist (Stat o1 w secretFilePath) = true := by
    cases hn : IsNotExist (Stat o1 w secretFilePath)
    · rw [key_of_file o1 w henv hn] at h1
      simp [ReadFile, hfile] at h1
    · rfl
  obtain ⟨_, _, _, hw⟩ := generate_result o1 w k w1 henv hn h1
  have hl : w1.files.lookup secretFilePath = some ⟨k, 0o600⟩ := by
    rw [hw, Setenv_files]
    simp [List.lookup]
  have hl' : w'.files.lookup secretFilePath = some ⟨k, 0o600⟩ := by rw [hkeep]; exact hl
  refine ⟨⟨_, key_of_existing_file o2 w' _ hclear hl' hr, ?_, ?_⟩,
    readFile_of_lookup o2 w' _ _ hr hl', ?_⟩
  · rw [Setenv_files, hkeep]
  · rw [Setenv_files]; exact hl'
  · intro v f hv hf
    exact ⟨_, key_of_existing_file o2 v f hv hf hr, Setenv_files _ _ _⟩

/-- C8: when the random source delivers, `generateAPIKey` returns the hex encoding of the 32
bytes: 64 characters, each of `0-9a-f`, decoding back to the bytes, so that two runs giving
the same key drew the same bytes; and every key `getOrGenerateAPIKey` generates is a
non-empty string of 64 such characters. -/
theorem generateAPIKey_hex (o : Oracle) (h : o.randErr = false) :
    generateAPIKey o = .ok (EncodeToString (randRead o 32)) ∧
    (randRead o 32).length = 32 ∧
    (EncodeToString (randRead o 32)).length = 64 ∧
    (∀ c ∈ (EncodeToString (randRead o 32)).data, isLowerHex c = true) ∧
    DecodeString (EncodeToString (randRead o 32)) = some (randRead o 32) ∧
    (∀ o2 : Oracle, generateAPIKey o2 = generateAPIKey o → randRead o2 32 = randRead o 32) ∧
    ∀ (w : World) (k : String) (w1 : World),
      Getenv w "PROM_PROXY_SECURE_API_KEY" = "" →
      IsNotExist (Stat o w secretFilePath) = true →
      getOrGenerateAPIKey o w = .ok (k, w1) →
      k ≠ "" ∧ k.length = 64 ∧ ∀ c ∈ k.data, isLowerHex c = true := by
  have hlen : (EncodeToString (randRead o 32)).length = 64 := by
    rw [EncodeToString_length, randRead_length]
  refine ⟨by simp [generateAPIKey, h], randRead_length o 32, hlen, EncodeToString_lower _,
    DecodeString_EncodeToString _, ?_, ?_⟩
  · intro o2 h2
    unfold generateAPIKey at h2
    cases hr2 : o2.randErr
    · simp only [hr2, h, Bool.false_eq_true, if_false, Except.ok.injEq] at h2
      exact EncodeToString_injective h2
    · simp [hr2, h] at h2
  · intro w k w1 he hs hres
    obtain ⟨hk, _, _, _⟩ := generate_result o w k w1 he hs hres
    rw [hk]
    exact ⟨encode32_ne_empty o, hlen, EncodeToString_lower _⟩

/-! ## Auxiliary facts: splitting at a separator -/

theorem splitOn_ne_nil (sep : Char) (l : List Char) : splitOn sep l ≠ [] := by
  cases l with
  | nil => simp [splitOn]
  | cons c cs =>
    unfold splitOn
    split
    · simp
    · split <;> simp

theorem splitOn_of_not_mem (sep : Char) (l : List Char) (h : sep ∉ l) :
    splitOn sep l = [l] := by
  induction l with
  | nil => rfl
  | cons c cs ih =>
    have hc : c ≠ sep := fun e => h (by rw [e]; exact List.mem_cons_self _ _)
    have hcs : sep ∉ cs := fun e => h (List.mem_cons_of_mem _ e)
    unfold splitOn
    rw [if_neg hc, ih hcs]

theorem splitOn_append_sep (sep : Char) (a b : List Char) (h : sep ∉ a) :
    splitOn sep (a ++ sep :: b) = a :: splitOn sep b := by
  induction a with
  | nil =>
    show splitOn sep (sep :: b) = _
    rw [splitOn, if_pos rfl]
  | cons c cs ih =>
    have hc : c ≠ sep := fun e => h (by rw [e]; exact List.mem_cons_self _ _)
    have hcs : sep ∉ cs := fun e => h (List.mem_cons_of_mem _ e)
    show splitOn sep (c :: (cs ++ sep :: b)) = _
    rw [splitOn, if_neg hc, ih hcs]

theorem splitOn_eq_single (sep : Char) (l b : List Char) (h : splitOn sep l = [b]) :
    l = b ∧ sep ∉ b := by
  induction l generalizing b with
  | nil =>
    simp only [splitOn, List.cons.injEq, and_true] at h
    subst h
    exact ⟨rfl, by simp⟩
  | cons c cs ih =>
    unfold splitOn at h
    by_cases hc : c = sep
    · rw [if_pos hc] at h
      simp only [List.cons.injEq] at h
      exact absurd h.2 (splitOn_ne_nil sep cs)
    · rw [if_neg hc] at h
      cases hs : splitOn sep cs with
      | nil => exact absurd hs (splitOn_ne_nil sep cs)
      | cons p ps =>
        simp only [hs, List.cons.injEq] at h
        obtain ⟨hb, hps⟩ := h
        subst hps
        obtain ⟨h1, h2⟩ := ih p hs
        subst hb
        refine ⟨by rw [h1], ?_⟩
        intro hm
        rcases List.mem_cons.mp hm with e | e
        · exact hc e.symm
        · exact h2 e

theorem splitOn_eq_pair (sep : Char) (l a b : List Char) (h : splitOn sep l = [a, b]) :
    l = a ++ sep :: b ∧ sep ∉ b := by
  induction l generalizing a with
  | nil => simp [splitOn] at h
  | cons c cs ih =>
    unfold splitOn at h
    by_cases hc : c = sep
    · rw [if_pos hc] at h
      simp only [List.cons.injEq] at h
      obtain ⟨ha, hb⟩ := h
      obtain ⟨h1, h2⟩ := splitOn_eq_single sep cs b hb
      subst ha
      exact ⟨by rw [hc, h1]; rfl, h2⟩
    · rw [if_neg hc] at h
      cases hs : splitOn sep cs with
      | nil => exact absurd hs (splitOn_ne_nil sep cs)
      | cons p ps =>
        simp only [hs, List.cons.injEq] at h
        obtain ⟨ha, hps⟩ := h
        subst hps
        obtain ⟨h1, h2⟩ := ih p hs
        subst ha
        exact ⟨by rw [h1]; rfl, h2⟩

/-- The header `"Bearer " ++ k` with `k` free of spaces splits into `"Bearer"` and `k`. -/
theorem Split_bearer (k : String) (hk : ' ' ∉ k.data) :
    Split ("Bearer " ++ k) ' ' = ["Bearer", k] := by
  have hd : ("Bearer " ++ k).data = "Bearer".data ++ ' ' :: k.data := by
    rw [String.data_append]; rfl
  unfold Split
  rw [hd, splitOn_append_sep ' ' _ _ (by decide), splitOn_of_not_mem ' ' _ hk]
  rfl

/-- A header that splits into exactly `"Bearer"` and `k` is `"Bearer " ++ k`, and `k` has no
space. -/
theorem Split_bearer_inv (s k : String) (hl : (Split s ' ').length = 2)
    (h0 : (Split s ' ').getD 0 "" = "Bearer") (h1 : (Split s ' ').getD 1 "" = k) :
    s = "Bearer " ++ k ∧ ' ' ∉ k.data := by
  unfold Split at hl h0 h1
  match hs : splitOn ' ' s.data, hl, h0, h1 with
  | [a, b], _, h0, h1 =>
    simp only [List.map_cons, List.map_nil, List.getD_cons_zero, List.getD_cons_succ] at h0 h1
    obtain ⟨hd, hb⟩ := splitOn_eq_pair ' ' s.data a b hs
    have ha : a = "Bearer".data := congrArg String.data h0
    have hkb : b = k.data := congrArg String.data h1
    refine ⟨?_, by rw [← hkb]; exact hb⟩
    apply String.ext
    rw [hd, String.data_append, ha, hkb]
    rfl

/-! ## Auxiliary facts: the gate -/

theorem gate_off (o : Oracle) (next : HandlerFunc) (c : Context) (w : World)
    (hflag : getEnvironment w "PROM_PROXY_SECURE_API_WITH_KEY" "False" ≠ "True") :
    apiKeyMiddleware o next c w = next c w := by
  unfold apiKeyMiddleware
  simp only [if_neg hflag, ne_eq, not_true_eq_false, if_false]

theorem gate_on (o : Oracle) (next : HandlerFunc) (c : Context) (w : World) (k : String)
    (w1 : World)
    (hflag : getEnvironment w "PROM_PROXY_SECURE_API_WITH_KEY" "False" = "True")
    (hkey : getOrGenerateAPIKey o w = .ok (k, w1)) :
    apiKeyMiddleware o next c w =
      if k ≠ "" then
        if c.GetHeader "Authorization" = "" then
          .ok ((c.JSON StatusUnauthorized
            [("error", .str "Authorization header is missing")]).Abort, w1)
        else if (Split (c.GetHeader "Authorization") ' ').length ≠ 2 ∨
            (Split (c.GetHeader "Authorization") ' ').getD 0 "" ≠ "Bearer" then
          .ok ((c.JSON StatusUnauthorized
            [("error", .str "Invalid Authorization header format")]).Abort, w1)
        else if (Split (c.GetHeader "Authorization") ' ').getD 1 "" ≠ k then
          .ok ((c.JSON StatusUnauthorized [("error", .str "Unauthorized")]).Abort, w1)
        else next c w1
      else next c w1 := by
  unfold apiKeyMiddleware
  simp only [if_pos hflag, hkey]

/-- With a non-empty key, a header that fails one of the three checks is rejected, with a
message that does not depend on the rest of the chain. -/
theorem gate_rejects (o : Oracle) (c : Context) (w : World) (k : String) (w1 : World)
    (hflag : getEnvironment w "PROM_PROXY_SECURE_API_WITH_KEY" "False" = "True")
    (hkey : getOrGenerateAPIKey o w = .ok (k, w1)) (hk : k ≠ "")
    (hbad : ¬ (c.GetHeader "Authorization" ≠ "" ∧
      (Split (c.GetHeader "Authorization") ' ').length = 2 ∧
      (Split (c.GetHeader "Authorization") ' ').getD 0 "" = "Bearer" ∧
      (Split (c.GetHeader "Authorization") ' ').getD 1 "" = k)) :
    ∃ msg, ∀ next : HandlerFunc, apiKeyMiddleware o next c w =
      .ok ((c.JSON StatusUnauthorized [("error", .str msg)]).Abort, w1) := by
  by_cases h0 : c.GetHeader "Authorization" = ""
  · refine ⟨"Authorization header is missing", fun next => ?_⟩
    rw [gate_on o next c w k w1 hflag hkey, if_pos hk, if_pos h0]
  · by_cases h1 : (Split (c.GetHeader "Authorization") ' ').length ≠ 2 ∨
        (Split (c.GetHeader "Authorization") ' ').getD 0 "" ≠ "Bearer"
    · refine ⟨"Invalid Authorization header format", fun next => ?_⟩
      rw [gate_on o next c w k w1 hflag hkey, if_pos hk, if_neg h0, if_pos h1]
    · by_cases h2 : (Split (c.GetHeader "Authorization") ' ').getD 1 "" ≠ k
      · refine ⟨"Unauthorized", fun next => ?_⟩
        rw [gate_on o next c w k w1 hflag hkey, if_pos hk, if_neg h0, if_neg h1, if_pos h2]
      · exfalso
        apply hbad
        simp only [ne_eq, not_or, not_not] at h1 h2
        exact ⟨h0, h1.1, h1.2, h2⟩

/-- With a non-empty key, a header that passes the three checks reaches `next`. -/
theorem gate_admits (o : Oracle) (next : HandlerFunc) (c : Context) (w : World) (k : String)
    (w1 : World)
    (hflag : getEnvironment w "PROM_PROXY_SECURE_API_WITH_KEY" "False" = "True")
    (hkey : getOrGenerateAPIKey o w = .ok (k, w1))
    (hgood : c.GetHeader "Authorization" ≠ "" ∧
      (Split (c.GetHeader "Authorization") ' ').length = 2 ∧
      (Split (c.GetHeader "Authorization") ' ').getD 0 "" = "Bearer" ∧
      (Split (c.GetHeader "Authorization") ' ').getD 1 "" = k) :
    apiKeyMiddleware o next c w = next c w1 := by
  rw [gate_on o next c w k w1 hflag hkey]
  by_cases hk : k ≠ ""
  · rw [if_pos hk, if_neg hgood.1,
      if_neg (not_or.mpr ⟨not_not.mpr hgood.2.1, not_not.mpr hgood.2.2.1⟩),
      if_neg (not_not.mpr hgood.2.2.2)]
  · rw [if_neg hk]

theorem bearer_ne_empty (k : String) : "Bearer " ++ k ≠ "" := by
  intro h
  have := congrArg String.data h
  rw [String.data_append] at this
  simp at this

/-- The three checks of the gate, in terms of the header text. -/
theorem checks_iff (s k : String) :
    (s ≠ "" ∧ (Split s ' ').length = 2 ∧ (Split s ' ').getD 0 "" = "Bearer" ∧
      (Split s ' ').getD 1 "" = k) ↔ (' ' ∉ k.data ∧ s = "Bearer " ++ k) := by
  constructor
  · rintro ⟨_, hl, h0, h1⟩
    obtain ⟨hs, hsp⟩ := Split_bearer_inv s k hl h0 h1
    exact ⟨hsp, hs⟩
  · rintro ⟨hsp, hs⟩
    subst hs
    rw [Split_bearer k hsp]
    exact ⟨bearer_ne_empty k, rfl, rfl, rfl⟩

theorem usage_client_error (up : Upstream) (promURL seconds name : String) (w : World)
    (e : String) (h : up.newClient promURL = some e) :
    getAverageCPUUsage up promURL seconds name w = ((⟨0⟩, some e), w) := by
  simp only [getAverageCPUUsage, h]

theorem usage_query_error (up : Upstream) (promURL seconds name : String) (w : World)
    (r : Value) (ws : List String) (e : String) (h : up.newClient promURL = none)
    (hq : up.query (cpuUsageQuery name seconds) = (r, ws, some e)) :
    getAverageCPUUsage up promURL seconds name w =
      ((⟨0⟩, some e), { w with queries := w.queries ++ [cpuUsageQuery name seconds] }) := by
  simp only [getAverageCPUUsage, h, hq]

theorem usage_vector (up : Upstream) (promURL seconds name : String) (w : World)
    (s : Sample) (rest : List Sample) (ws : List String) (h : up.newClient promURL = none)
    (hq : up.query (cpuUsageQuery name seconds) = (.vector (s :: rest), ws, none)) :
    ∃ w2 : World, w2.env = w.env ∧ w2.files = w.files ∧
      w2.queries = w.queries ++ [cpuUsageQuery name seconds] ∧
      getAverageCPUUsage up promURL seconds name w = ((s.Value, none), w2) := by
  by_cases hw : ws.length > 0
  · exact ⟨⟨w.env, w.files, w.queries ++ [cpuUsageQuery name seconds],
        w.stdout ++ ["Warnings: [" ++ " ".intercalate ws ++ "]"]⟩, rfl, rfl, rfl,
      by simp only [getAverageCPUUsage, h, hq, if_pos hw]⟩
  · exact ⟨{ w with queries := w.queries ++ [cpuUsageQuery name seconds] }, rfl, rfl, rfl,
      by simp only [getAverageCPUUsage, h, hq, if_neg hw]⟩

theorem usage_no_data (up : Upstream) (promURL seconds name : String) (w : World)
    (r : Value) (ws : List String) (h : up.newClient promURL = none)
    (hq : up.query (cpuUsageQuery name seconds) = (r, ws, none))
    (hr : ∀ s rest, r ≠ .vector (s :: rest)) :
    ∃ w2 : World, w2.env = w.env ∧ w2.files = w.files ∧
      w2.queries = w.queries ++ [cpuUsageQuery name seconds] ∧
      getAverageCPUUsage up promURL seconds name w =
        ((⟨0⟩, some ("no data found for container: " ++ name)), w2) := by
  by_cases hw : ws.length > 0
  · refine ⟨⟨w.env, w.files, w.queries ++ [cpuUsageQuery name seconds],
        w.stdout ++ ["Warnings: [" ++ " ".intercalate ws ++ "]"]⟩, rfl, rfl, rfl, ?_⟩
    simp only [getAverageCPUUsage, h, hq, if_pos hw]
  · refine ⟨{ w with queries := w.queries ++ [cpuUsageQuery name seconds] }, rfl, rfl, rfl, ?_⟩
    simp only [getAverageCPUUsage, h, hq, if_neg hw]

theorem vector_cases (r : Value) :
    (∃ s rest, r = .vector (s :: rest)) ∨ ∀ s rest, r ≠ .vector (s :: rest) := by
  cases r with
  | vector l =>
    cases l with
    | nil => right; intro s rest h; simp at h
    | cons s rest => left; exact ⟨s, rest, rfl⟩
  | scalar v => right; intro s rest h; simp at h
  | string v => right; intro s rest h; simp at h
  | matrix v => right; intro s rest h; simp at h

theorem getAverageCPUUsage_frame (up : Upstream) (promURL seconds name : String) (w : World) :
    (getAverageCPUUsage up promURL seconds name w).2.env = w.env ∧
    (getAverageCPUUsage up promURL seconds name w).2.files = w.files := by
  cases hn : up.newClient promURL with
  | some e => rw [usage_client_error up promURL seconds name w e hn]; exact ⟨rfl, rfl⟩
  | none =>
    rcases hq : up.query (cpuUsageQuery name seconds) with ⟨r, ws, err⟩
    cases err with
    | some e => rw [usage_query_error up promURL seconds name w r ws e hn hq]; exact ⟨rfl, rfl⟩
    | none =>
      rcases vector_cases r with ⟨s, rest, hr⟩ | hr
      · subst hr
        obtain ⟨w2, h1, h2, _, h4⟩ := usage_vector up promURL seconds name w s rest ws hn hq
        rw [h4]; exact ⟨h1, h2⟩
      · obtain ⟨w2, h1, h2, _, h4⟩ := usage_no_data up promURL seconds name w r ws hn hq hr
        rw [h4]; exact ⟨h1, h2⟩

theorem JSON_status (c : Context) (code : Nat) (obj : H) : (c.JSON code obj).status = code := by
  unfold Context.JSON
  split
  · split <;> rfl
  · rfl

/-- The route handler always answers, with `200` or `500`, and leaves environment and files
alone. -/
theorem cpuUsageHandler_frame (up : Upstream) (promURL : String) (c : Context) (w : World) :
    ∃ c1 w1, cpuUsageHandler up promURL c w = .ok (c1, w1) ∧
      (c1.status = StatusOK ∨ c1.status = StatusInternalServerError) ∧
      w1.env = w.env ∧ w1.files = w.files := by
  have hfr := getAverageCPUUsage_frame up promURL (c.Param "seconds") (c.Param "container") w
  rcases hres : getAverageCPUUsage up promURL (c.Param "seconds") (c.Param "container") w with
    ⟨⟨v, err⟩, w1⟩
  rw [hres] at hfr
  cases err with
  | none =>
    refine ⟨c.JSON StatusOK [("average_cpu_usage", .num v)], w1, ?_, Or.inl (JSON_status _ _ _),
      hfr.1, hfr.2⟩
    simp only [cpuUsageHandler, hres]
  | some e =>
    refine ⟨c.JSON StatusInternalServerError [("error", .str e)], w1, ?_,
      Or.inr (JSON_status _ _ _), hfr.1, hfr.2⟩
    simp only [cpuUsageHandler, hres]

theorem getEnvironment_of_eq (w : World) (name d v : String) (hv : v ≠ "")
    (h : Getenv w name = v) : getEnvironment w name d = v := by
  unfold getEnvironment
  rw [if_neg (by rw [h]; exact hv), h]

theorem getEnvironment_flag_ne (w : World)
    (h : Getenv w "PROM_PROXY_SECURE_API_WITH_KEY" ≠ "True") :
    getEnvironment w "PROM_PROXY_SECURE_API_WITH_KEY" "False" ≠ "True" := by
  unfold getEnvironment
  split
  · decide
  · exact h

/-- A header that is absent reads as the empty string, which fails the checks. -/
theorem checks_fail_of_bad (c : Context) (k : String)
    (hbad : c.header.lookup "Authorization" = none ∨
      (Split (c.GetHeader "Authorization") ' ').length ≠ 2 ∨
      (Split (c.GetHeader "Authorization") ' ').getD 0 "" ≠ "Bearer" ∨
      (Split (c.GetHeader "Authorization") ' ').getD 1 "" ≠ k) :
    ¬ (c.GetHeader "Authorization" ≠ "" ∧
      (Split (c.GetHeader "Authorization") ' ').length = 2 ∧
      (Split (c.GetHeader "Authorization") ' ').getD 0 "" = "Bearer" ∧
      (Split (c.GetHeader "Authorization") ' ').getD 1 "" = k) := by
  rintro ⟨h0, h1, h2, h3⟩
  rcases hbad with h | h | h | h
  · apply h0
    unfold Context.GetHeader
    rw [h]; rfl
  · exact h h1
  · exact h h2
  · exact h h3

/-! ## The gate -/

/-- C1 (amended): with the flag equal to `True` and the key store returning a non-empty key
`k`, a request whose Authorization header is absent, or does not split at spaces into exactly
two parts, or whose first part is not `Bearer`, or whose second part differs from `k`, is
answered `401` with an error body and aborted, whatever the rest of the chain is: the route
handler does not run and no query is sent upstream. -/
theorem gate_rejects_bad_header (o : Oracle) (up : Upstream) (promURL : String) (c : Context)
    (w : World) (k : String) (w1 : World)
    (hflag : Getenv w "PROM_PROXY_SECURE_API_WITH_KEY" = "True")
    (hkey : getOrGenerateAPIKey o w = .ok (k, w1)) (hk : k ≠ "")
    (hbad : c.header.lookup "Authorization" = none ∨
      (Split (c.GetHeader "Authorization") ' ').length ≠ 2 ∨
      (Split (c.GetHeader "Authorization") ' ').getD 0 "" ≠ "Bearer" ∨
      (Split (c.GetHeader "Authorization") ' ').getD 1 "" ≠ k) :
    ∃ msg : String,
      (∀ next : HandlerFunc, apiKeyMiddleware o next c w =
        .ok ((c.JSON StatusUnauthorized [("error", .str msg)]).Abort, w1)) ∧
      serve o up promURL c w =
        .ok ((c.JSON StatusUnauthorized [("error", .str msg)]).Abort, w1) ∧
      ((c.JSON StatusUnauthorized [("error", .str msg)]).Abort).status = 401 ∧
      ((c.JSON StatusUnauthorized [("error", .str msg)]).Abort).aborted = true ∧
      ((c.JSON StatusUnauthorized [("error", .str msg)]).Abort).body =
        some [("error", .str msg)] ∧
      w1.queries = w.queries := by
  have hf := getEnvironment_of_eq w _ "False" "True" (by decide) hflag
  have hb := checks_fail_of_bad c k hbad
  obtain ⟨msg, hm⟩ := gate_rejects o c w k w1 hf hkey hk hb
  exact ⟨msg, hm, hm _, rfl, rfl, rfl, (key_store_logs o w k w1 hkey).1⟩

/-- C2 (amended): with the flag equal to `True` and the key store returning a key `k` that
contains no space, a request whose Authorization header is `"Bearer "` followed by `k` is let
through: the gate hands the request and the state the key store left to the rest of the
chain, whatever that is, without status, body or abort of its own; so the route handler runs
and the answer is not `401`. -/
theorem gate_admits_bearer_key (o : Oracle) (up : Upstream) (promURL : String) (c : Context)
    (w : World) (k : String) (w1 : World)
    (hflag : Getenv w "PROM_PROXY_SECURE_API_WITH_KEY" = "True")
    (hkey : getOrGenerateAPIKey o w = .ok (k, w1)) (hsp : ' ' ∉ k.data)
    (hh : c.GetHeader "Authorization" = "Bearer " ++ k) :
    (∀ next : HandlerFunc, apiKeyMiddleware o next c w = next c w1) ∧
    serve o up promURL c w = cpuUsageHandler up promURL c w1 ∧
    ∃ c1 w2, serve o up promURL c w = .ok (c1, w2) ∧ c1.status ≠ StatusUnauthorized := by
  have hf := getEnvironment_of_eq w _ "False" "True" (by decide) hflag
  have hg := (checks_iff (c.GetHeader "Authorization") k).mpr ⟨hsp, hh⟩
  have hs : serve o up promURL c w = cpuUsageHandler up promURL c w1 :=
    gate_admits o _ c w k w1 hf hkey hg
  refine ⟨fun next => gate_admits o next c w k w1 hf hkey hg, hs, ?_⟩
  obtain ⟨c1, w2, hr, hst, _⟩ := cpuUsageHandler_frame up promURL c w1
  refine ⟨c1, w2, by rw [hs, hr], ?_⟩
  rcases hst with h | h <;> rw [h] <;> decide

/-- C3: with the flag holding anything but exactly `True` (unset and empty included), the gate
hands every request, whatever its headers, to the rest of the chain with the state it
received: environment and files are untouched, and the outcome does not depend on what the
system calls of the key store would do. -/
theorem gate_disabled_noop (o : Oracle) (up : Upstream) (promURL : String) (c : Context)
    (w : World) (hflag : Getenv w "PROM_PROXY_SECURE_API_WITH_KEY" ≠ "True") :
    (∀ next : HandlerFunc, apiKeyMiddleware o next c w = next c w) ∧
    serve o up promURL c w = cpuUsageHandler up promURL c w ∧
    ∃ c1 w2, serve o up promURL c w = .ok (c1, w2) ∧
      c1.status ≠ StatusUnauthorized ∧ w2.env = w.env ∧ w2.files = w.files := by
  have hf := getEnvironment_flag_ne w hflag
  have hs : serve o up promURL c w = cpuUsageHandler up promURL c w := gate_off o _ c w hf
  refine ⟨fun next => gate_off o next c w hf, hs, ?_⟩
  obtain ⟨c1, w2, hr, hst, he, hfi⟩ := cpuUsageHandler_frame up promURL c w
  refine ⟨c1, w2, by rw [hs, hr], ?_, he, hfi⟩
  rcases hst with h | h <;> rw [h] <;> decide

/-- C10: with the flag equal to `True` and `k` the key the key store returns, the gate lets a
request through exactly when `k` is empty, or `k` has no space and the Authorization header
is `"Bearer "` followed by `k`; otherwise it answers `401` and aborts. So an empty key (as an
existing, empty secret file gives) admits every request, and a key with a space admits
none. -/
theorem gate_acceptance_exact (o : Oracle) (up : Upstream) (promURL : String) (c : Context)
    (w : World) (k : String) (w1 : World)
    (hflag : Getenv w "PROM_PROXY_SECURE_API_WITH_KEY" = "True")
    (hkey : getOrGenerateAPIKey o w = .ok (k, w1)) :
    ((k = "" ∨ (' ' ∉ k.data ∧ c.GetHeader "Authorization" = "Bearer " ++ k)) →
      ∀ next : HandlerFunc, apiKeyMiddleware o next c w = next c w1) ∧
    (¬ (k = "" ∨ (' ' ∉ k.data ∧ c.GetHeader "Authorization" = "Bearer " ++ k)) →
      ∃ msg, ∀ next : HandlerFunc, apiKeyMiddleware o next c w =
        .ok ((c.JSON StatusUnauthorized [("error", .str msg)]).Abort, w1)) ∧
    (∃ c1 w2, serve o up promURL c w = .ok (c1, w2) ∧
      (c1.status ≠ StatusUnauthorized ↔
        (k = "" ∨ (' ' ∉ k.data ∧ c.GetHeader "Authorization" = "Bearer " ++ k)))) ∧
    (k = "" → ∀ next : HandlerFunc, apiKeyMiddleware o next c w = next c w1) ∧
    (' ' ∈ k.data → ∃ msg, ∀ next : HandlerFunc, apiKeyMiddleware o next c w =
        .ok ((c.JSON StatusUnauthorized [("error", .str msg)]).Abort, w1)) ∧
    ∀ (v : World) (f : File) (d : Context),
      Getenv v "PROM_PROXY_SECURE_API_WITH_KEY" = "True" →
      Getenv v "PROM_PROXY_SECURE_API_KEY" = "" →
      v.files.lookup secretFilePath = some f → f.contents = "" → o.readErr = false →
      ∀ next : HandlerFunc,
        apiKeyMiddleware o next d v = next d (Setenv v "PROM_PROXY_SECURE_API_KEY" "") := by
  have hf := getEnvironment_of_eq w _ "False" "True" (by decide) hflag
  have hpass : (k = "" ∨ (' ' ∉ k.data ∧ c.GetHeader "Authorization" = "Bearer " ++ k)) →
      ∀ next : HandlerFunc, apiKeyMiddleware o next c w = next c w1 := by
    rintro (h | h) next
    · rw [gate_on o next c w k w1 hf hkey, if_neg (not_not.mpr h)]
    · exact gate_admits o next c w k w1 hf hkey ((checks_iff _ k).mpr h)
  have hrej : ¬ (k = "" ∨ (' ' ∉ k.data ∧ c.GetHeader "Authorization" = "Bearer " ++ k)) →
      ∃ msg, ∀ next : HandlerFunc, apiKeyMiddleware o next c w =
        .ok ((c.JSON StatusUnauthorized [("error", .str msg)]).Abort, w1) := by
    intro h
    have hk : k ≠ "" := fun e => h (Or.inl e)
    exact gate_rejects o c w k w1 hf hkey hk
      (fun hg => h (Or.inr ((checks_iff _ k).mp hg)))
  refine ⟨hpass, hrej, ?_, fun h => hpass (Or.inl h), ?_, ?_⟩
  · by_cases hc : k = "" ∨ (' ' ∉ k.data ∧ c.GetHeader "Authorization" = "Bearer " ++ k)
    · obtain ⟨c1, w2, hr, hst, _⟩ := cpuUsageHandler_frame up promURL c w1
      refine ⟨c1, w2, ?_, ?_⟩
      · show apiKeyMiddleware o (cpuUsageHandler up promURL) c w = _
        rw [hpass hc, hr]
      · refine ⟨fun _ => hc, fun _ => ?_⟩
        rcases hst with h | h <;> rw [h] <;> decide
    · obtain ⟨msg, hm⟩ := hrej hc
      exact ⟨_, _, hm _, fun h => absurd rfl h, fun h => absurd h hc⟩
  · intro hsp
    apply hrej
    rintro (h | h)
    · rw [h] at hsp
      simp at hsp
    · exact h.1 hsp
  · intro v f d hvf hve hvl hfc hre next
    have hvf2 := getEnvironment_of_eq v _ "False" "True" (by decide) hvf
    have hkv := key_of_existing_file o v f hve hvl hre
    rw [hfc] at hkv
    rw [gate_on o next d v "" _ hvf2 hkv, if_neg (not_not.mpr rfl)]

/-! ## The route -/

/-- The override wins over an existing secret file, even when every system call would fail. -/
theorem override_returned_state_unchanged_witness :
    "a b" ≠ "" ∧ Getenv spacedKeyWorld "PROM_PROXY_SECURE_API_KEY" = "a b" ∧
      getOrGenerateAPIKey failingOracle spacedKeyWorld = .ok ("a b", spacedKeyWorld) :=
  ⟨by decide, by decide,
    override_returned_state_unchanged failingOracle spacedKeyWorld "a b" (by decide)
      (by decide)⟩

/-- Generation in the empty state leaves the key in the file and in the override. -/
theorem generated_key_persisted_witness :
    Getenv emptyWorld "PROM_PROXY_SECURE_API_KEY" = "" ∧
      emptyWorld.files.lookup secretFilePath = none ∧
      getOrGenerateAPIKey soundOracle emptyWorld = .ok (soundKey, generatedWorld) ∧
      generatedWorld.files.lookup secretFilePath = some ⟨soundKey, 0o600⟩ ∧
      Getenv generatedWorld "PROM_PROXY_SECURE_API_KEY" = soundKey :=
  have h := (generated_key_persisted soundOracle emptyWorld (by decide) (by decide)).2
    soundKey generatedWorld (by rfl)
  ⟨by decide, by decide, by rfl, h.1, h.2.2⟩

/-- After a generation, a second call with another random source returns the same key. -/
theorem second_call_same_key_witness :
    getOrGenerateAPIKey soundOracle emptyWorld = .ok (soundKey, generatedWorld) ∧
      ∃ w2, getOrGenerateAPIKey otherOracle generatedWorld = .ok (soundKey, w2) :=
  ⟨by rfl,
    (second_call_same_key soundOracle otherOracle emptyWorld soundKey generatedWorld
      (by rfl)).2 (by rfl)⟩

/-- After a restart with the file kept, the generated key is read back. -/
theorem key_stable_across_restart_witness :
    Getenv emptyWorld "PROM_PROXY_SECURE_API_KEY" = "" ∧
      emptyWorld.files.lookup secretFilePath = none ∧
      getOrGenerateAPIKey soundOracle emptyWorld = .ok (soundKey, generatedWorld) ∧
      restartedWorld.files = generatedWorld.files ∧
      Getenv restartedWorld "PROM_PROXY_SECURE_API_KEY" = "" ∧
      otherOracle.readErr = false ∧
      ∃ w2, getOrGenerateAPIKey otherOracle restartedWorld = .ok (soundKey, w2) ∧
        w2.files = generatedWorld.files ∧
        w2.files.lookup secretFilePath = some ⟨soundKey, 0o600⟩ :=
  ⟨by decide, by decide, by rfl, by decide, by decide, by rfl,
    (key_stable_across_restart soundOracle otherOracle emptyWorld soundKey generatedWorld
      restartedWorld (by decide) (by decide) (by rfl) (by decide) (by decide) (by rfl)).1⟩

/-- The key of `soundOracle` is the hex encoding of `0, 1, ..., 31`. -/
theorem generateAPIKey_hex_witness :
    soundOracle.randErr = false ∧
      generateAPIKey soundOracle = .ok (EncodeToString (randRead soundOracle 32)) ∧
      (EncodeToString (randRead soundOracle 32)).length = 64 :=
  have h := generateAPIKey_hex soundOracle (by rfl)
  ⟨by rfl, h.1, h.2.2.1⟩

/-- The header `InvalidFormat` is answered `401` and no query goes upstream. -/
theorem gate_rejects_bad_header_witness :
    Getenv overrideWorld "PROM_PROXY_SECURE_API_WITH_KEY" = "True" ∧
      getOrGenerateAPIKey soundOracle overrideWorld = .ok ("s3cret", overrideWorld) ∧
      "s3cret" ≠ "" ∧
      (Split ((request [("Authorization", "InvalidFormat")]).GetHeader "Authorization")
        ' ').length ≠ 2 ∧
      ∃ msg : String,
        serve soundOracle oneSampleUpstream "http://192.168.87.108:9090"
            (request [("Authorization", "InvalidFormat")]) overrideWorld =
          .ok (((request [("Authorization", "InvalidFormat")]).JSON StatusUnauthorized
            [("error", .str msg)]).Abort, overrideWorld) :=
  have h := gate_rejects_bad_header soundOracle oneSampleUpstream "http://192.168.87.108:9090"
    (request [("Authorization", "InvalidFormat")]) overrideWorld "s3cret" overrideWorld
    (by decide) (by rfl) (by decide) (Or.inr (Or.inl (by decide)))
  ⟨by decide, by rfl, by decide, by decide,
    h.elim fun msg hm => ⟨msg, hm.2.1⟩⟩

/-- The header `Bearer s3cret` with the key `s3cret` reaches the route handler. -/
theorem gate_admits_bearer_key_witness :
    Getenv overrideWorld "PROM_PROXY_SECURE_API_WITH_KEY" = "True" ∧
      getOrGenerateAPIKey soundOracle overrideWorld = .ok ("s3cret", overrideWorld) ∧
      ' ' ∉ "s3cret".data ∧
      (request [("Authorization", "Bearer s3cret")]).GetHeader "Authorization" =
        "Bearer " ++ "s3cret" ∧
      serve soundOracle oneSampleUpstream "http://192.168.87.108:9090"
          (request [("Authorization", "Bearer s3cret")]) overrideWorld =
        cpuUsageHandler oneSampleUpstream "http://192.168.87.108:9090"
          (request [("Authorization", "Bearer s3cret")]) overrideWorld :=
  ⟨by decide, by rfl, by decide, by decide,
    (gate_admits_bearer_key soundOracle oneSampleUpstream "http://192.168.87.108:9090"
      (request [("Authorization", "Bearer s3cret")]) overrideWorld "s3cret" overrideWorld
      (by decide) (by rfl) (by decide) (by decide)).2.1⟩

/-- With the flag `true` (not `True`) a request without header passes, even when every system
call would fail. -/
theorem gate_disabled_noop_witness :
    Getenv offWorld "PROM_PROXY_SECURE_API_WITH_KEY" ≠ "True" ∧
      serve failingOracle oneSampleUpstream "http://192.168.87.108:9090" (request []) offWorld =
        cpuUsageHandler oneSampleUpstream "http://192.168.87.108:9090" (request []) offWorld :=
  ⟨by decide,
    (gate_disabled_noop failingOracle oneSampleUpstream "http://192.168.87.108:9090"
      (request []) offWorld (by decide)).2.1⟩

/-- With an empty secret file the key is empty and a request without header passes. -/
theorem gate_acceptance_exact_witness :
    Getenv emptyFileWorld "PROM_PROXY_SECURE_API_WITH_KEY" = "True" ∧
      getOrGenerateAPIKey soundOracle emptyFileWorld =
        .ok ("", Setenv emptyFileWorld "PROM_PROXY_SECURE_API_KEY" "") ∧
      ∀ next : HandlerFunc, apiKeyMiddleware soundOracle next (request []) emptyFileWorld =
        next (request []) (Setenv emptyFileWorld "PROM_PROXY_SECURE_API_KEY" "") :=
  ⟨by decide, by rfl,
    (gate_acceptance_exact soundOracle oneSampleUpstream "http://192.168.87.108:9090"
      (request []) emptyFileWorld "" (Setenv emptyFileWorld "PROM_PROXY_SECURE_API_KEY" "")
      (by decide) (by rfl)).2.2.2.1 rfl⟩

/-- C1 as stated fails: security on, the key store returns the empty contents of an existing
secret file, and a request without Authorization header is answered `200` by the route
handler, after a query was sent upstream. -/
theorem absent_header_passes_with_empty_key :
    Getenv emptyFileWorld "PROM_PROXY_SECURE_API_WITH_KEY" = "True" ∧
      getOrGenerateAPIKey soundOracle emptyFileWorld =
        .ok ("", ⟨[("PROM_PROXY_SECURE_API_KEY", ""), ("PROM_PROXY_SECURE_API_WITH_KEY", "True")],
          [(secretFilePath, ⟨"", 0o600⟩)], [], []⟩) ∧
      (request []).header.lookup "Authorization" = none ∧
      serve soundOracle oneSampleUpstream "http://192.168.87.108:9090" (request [])
          emptyFileWorld =
        .ok (⟨[], [("seconds", "30"), ("container", "ollama-ollama_3-1")], 200,
            some [("average_cpu_usage", .num ⟨42⟩)], false⟩,
          ⟨[("PROM_PROXY_SECURE_API_KEY", ""), ("PROM_PROXY_SECURE_API_WITH_KEY", "True")],
            [(secretFilePath, ⟨"", 0o600⟩)],
            [cpuUsageQuery "ollama-ollama_3-1" "30"], []⟩) :=
  ⟨by decide, by rfl, by decide, by rfl⟩

/-- C2 as stated fails: security on, the key store returns the override `a b`, and the
request with header `Bearer a b` is answered `401` and aborted. -/
theorem bearer_key_with_space_rejected :
    Getenv spacedKeyWorld "PROM_PROXY_SECURE_API_WITH_KEY" = "True" ∧
      getOrGenerateAPIKey soundOracle spacedKeyWorld = .ok ("a b", spacedKeyWorld) ∧
      (request [("Authorization", "Bearer a b")]).GetHeader "Authorization" =
        "Bearer " ++ "a b" ∧
      serve soundOracle oneSampleUpstream "http://192.168.87.108:9090"
          (request [("Authorization", "Bearer a b")]) spacedKeyWorld =
        .ok (⟨[("Authorization", "Bearer a b")],
            [("seconds", "30"), ("container", "ollama-ollama_3-1")], 401,
            some [("error", .str "Invalid Authorization header format")], true⟩,
          spacedKeyWorld) :=
  ⟨by decide, by rfl, by decide, by rfl⟩

end PromProxy
